import Mathlib

/-!
# Verification of the jrpc-client session orchestrator

Shallow embedding of the `JRPCClient` class (connection gate, call
dispatch, prepared/batched calls, inbound-response normalization and the
notification registry) together with the pieces of its external
collaborators that the client's behaviour depends on: the RPC Engine
(the `jrpc` package, modelled from its contract: `call` registers one
pending call and queues one outbound request, `transmit` flushes all
queued requests into one message) and the lazy promise returned by
`prepare` (the `lazy-promise` package: the executor passed to the
constructor is stored and runs only when the promise is first awaited).

JavaScript values are modelled by the inductive `JSValue`; truthiness,
property access, `hasOwnProperty` and `delete` are defined on it.
-/

namespace JRPCClient

/-- A JavaScript value, as far as the client manipulates them:
`null`, `undefined`, booleans, (integer) numbers, strings, arrays and
plain objects given as ordered field lists. -/
inductive JSValue where
  | null
  | undefined
  | bool (b : Bool)
  | num (n : Int)
  | str (s : String)
  | arr (elems : List JSValue)
  | obj (fields : List (String × JSValue))

/-- JavaScript truthiness: `null`, `undefined`, `false`, `0` and `""`
are falsy; every array and object is truthy. -/
def truthy : JSValue → Bool
  | .null => false
  | .undefined => false
  | .bool b => b
  | .num n => n != 0
  | .str s => !s.isEmpty
  | .arr _ => true
  | .obj _ => true

/-- Whether a value is exactly `null`. -/
def isNull : JSValue → Bool
  | .null => true
  | _ => false

/-- Field lookup in an object's field list. -/
def getField : List (String × JSValue) → String → JSValue
  | [], _ => .undefined
  | (k', v) :: rest, k => if k' = k then v else getField rest k

/-- Whether an object's field list has a field named `k`. -/
def hasField : List (String × JSValue) → String → Bool
  | [], _ => false
  | (k', _) :: rest, k => if k' = k then true else hasField rest k

/-- `delete o[k]` on an object's field list. -/
def removeField : List (String × JSValue) → String → List (String × JSValue)
  | [], _ => []
  | (k', v) :: rest, k =>
      if k' = k then removeField rest k else (k', v) :: removeField rest k

/-- Property access `o[k]`: `undefined` on non-objects and missing keys. -/
def getProp : JSValue → String → JSValue
  | .obj fs, k => getField fs k
  | _, _ => .undefined

/-- `o.hasOwnProperty(k)`. -/
def hasOwnProperty : JSValue → String → Bool
  | .obj fs, k => hasField fs k
  | _, _ => false

/-- `delete o[k]`. -/
def deleteKey : JSValue → String → JSValue
  | .obj fs, k => .obj (removeField fs k)
  | v, _ => v

/-- `params || []`: the default applied to the `params` argument of
`call` and `prepare`. -/
def paramsOrDefault (p : JSValue) : JSValue :=
  if truthy p then p else .arr []

/-- The Response object built by the completion callbacks of `call`
(with `rejectOnError=false`) and of `prepare`:
`{ error: (err || null), result: (result || null) }`. -/
def mkResponse (err result : JSValue) : JSValue :=
  .obj [("error", if truthy err then err else .null),
        ("result", if truthy result then result else .null)]

/-- The `error` field of a Response. -/
def responseError (r : JSValue) : JSValue := getProp r "error"

/-- The `result` field of a Response. -/
def responseResult (r : JSValue) : JSValue := getProp r "result"

/-- The spec's Response invariant, as a boolean: exactly one of the
`error`/`result` fields is non-null. -/
def exactlyOneNonNull (r : JSValue) : Bool :=
  (!(isNull (responseError r)) && isNull (responseResult r)) ||
    (isNull (responseError r) && !(isNull (responseResult r)))

/-- `cleanResponse`: when a decoded response object carries both an
`error` and a `result` key, delete `result` if the `error` value is
truthy, otherwise delete `error`. -/
def cleanResponse (response : JSValue) : JSValue :=
  if truthy response && hasOwnProperty response "error"
      && hasOwnProperty response "result" then
    if truthy (getProp response "error") then
      deleteKey response "result"
    else
      deleteKey response "error"
  else
    response

/-- `onTransportData`, up to the final hand-off to `remote.receive`:
a truthy array is cleaned element by element, a truthy object is
cleaned as a whole, anything else passes through unchanged. -/
def normalizeInbound (data : JSValue) : JSValue :=
  if truthy data then
    match data with
    | .arr xs => .arr (xs.map cleanResponse)
    | .obj fs => cleanResponse (.obj fs)
    | other => other
  else
    data

/-- A rejection value: the `TypeError`s thrown by argument validation,
plain `Error`s (connection and transport failures), or a bare JS value
(the RPC error object passed to `reject` when `rejectOnError` is true). -/
inductive JSError where
  | typeError (msg : String)
  | error (msg : String)
  | value (v : JSValue)

/-- Settlement of a promise returned to the application. -/
inductive Outcome where
  | resolved (v : JSValue)
  | rejected (e : JSError)

/-- The client options retained in the private session data. -/
structure Config where
  autoConnect : Bool
  batchRequests : Bool

/-- The transport, modelled through the outcomes of the operations the
client may invoke on it during one dispatch: `connectOp`/`sendOp` are
`none` when the operation succeeds and `some msg` when it rejects with
an `Error msg` (`disconnectOp` likewise). -/
structure TransportModel where
  needsConnection : Bool
  isConnected : Bool
  connectOp : Option String
  disconnectOp : Option String
  sendOp : Option String

/-- The `isConnected` getter:
`!transport.needsConnection || transport.isConnected`. -/
def isConnectedClient (t : TransportModel) : Bool :=
  !t.needsConnection || t.isConnected

/-- `connect()`: returns the settlement (`none` = resolved) and whether
`transport.connect` was invoked. The transport operation runs only when
the transport needs a connection and is not connected. -/
def clientConnect (t : TransportModel) : Option String × Bool :=
  if t.needsConnection && !t.isConnected then (t.connectOp, true)
  else (none, false)

/-- `disconnect()`: returns the settlement and whether
`transport.disconnect` was invoked. -/
def clientDisconnect (t : TransportModel) : Option String × Bool :=
  if t.needsConnection && t.isConnected then (t.disconnectOp, true)
  else (none, false)

/-- A pending call registered with the RPC Engine: correlation id,
method and params. -/
structure PendingCall where
  id : Nat
  method : String
  params : JSValue

/-- The RPC Engine's visible state, modelled from its contract:
`pending` are the registered calls whose completion callback has not yet
fired (their timers and correlation ids live here), `outbox` the
registered calls not yet flushed by `transmit`. -/
structure EngineState where
  nextId : Nat
  pending : List PendingCall
  outbox : List PendingCall

/-- `remote.call(method, params, cb)`: registers one pending call under
a fresh correlation id and queues its request for the next `transmit`. -/
def engineCall (st : EngineState) (method : String) (params : JSValue) :
    EngineState :=
  { nextId := st.nextId + 1,
    pending := st.pending ++ [⟨st.nextId, method, params⟩],
    outbox := st.outbox ++ [⟨st.nextId, method, params⟩] }

/-- `remote.transmit(sendFn)`: flushes every queued request into one
outbound message handed to `sendFn`; with an empty queue no message is
produced. Returns the new state and the list of messages sent (each a
list of requests). -/
def engineTransmit (st : EngineState) : EngineState × List (List PendingCall) :=
  if st.outbox.isEmpty then (st, [])
  else ({ st with outbox := [] }, [st.outbox])

/-- `check.nonEmptyString(method)`. -/
def nonEmptyString (s : String) : Bool := !s.isEmpty

/-- The completion callback passed to `remote.call` by `call`, applied
to the `(err, result)` pair the engine completes with:
`rejectOnError=true` rejects with a truthy `err` and otherwise resolves
with the raw result; `rejectOnError=false` always resolves with the
Response `{error: err || null, result: result || null}`. -/
def callCompletionSettle (rejectOnError : Bool) (e r : JSValue) : Outcome :=
  if rejectOnError then
    if truthy e then .rejected (.value e) else .resolved r
  else
    .resolved (mkResponse e r)

/-- The completion callback passed to `remote.call` by `prepare`:
always resolves with the Response `{error: err || null,
result: result || null}`. -/
def prepareCompletionSettle (e r : JSValue) : Outcome :=
  .resolved (mkResponse e r)

/-- Result of running one `call`/`batch` dispatch to completion:
the settlement delivered to the application, the engine state left
behind, the messages given to `transport.send`, and whether
`connect()` had to invoke the transport. -/
structure RunResult where
  outcome : Outcome
  engine : EngineState
  transmissions : List (List PendingCall)
  connectCalled : Bool

/-- The body of `makeCall` in `call`, given the engine completion
`(err, result)` this call eventually receives: register the call,
transmit it as its own message, and settle — a `transport.send`
rejection rejects the call outright, otherwise the completion callback
settles it. -/
def makeCall (tr : TransportModel) (st : EngineState) (method : String)
    (params : JSValue) (rejectOnError : Bool) (completion : JSValue × JSValue) :
    RunResult :=
  let st1 := engineCall st method (paramsOrDefault params)
  let flushed := engineTransmit st1
  let outcome :=
    match tr.sendOp with
    | some e => Outcome.rejected (.error e)
    | none => callCompletionSettle rejectOnError completion.1 completion.2
  ⟨outcome, flushed.1, flushed.2, false⟩

/-- `call(method, params, {rejectOnError})`, parametrised by the engine
completion the registered call would receive: validate the method,
apply the connection gate (`ConnectionError` without `autoConnect`,
connect first otherwise), then run `makeCall`. -/
def callRun (cfg : Config) (tr : TransportModel) (st : EngineState)
    (method : String) (params : JSValue) (rejectOnError : Bool)
    (completion : JSValue × JSValue) : RunResult :=
  if !nonEmptyString method then
    ⟨.rejected (.typeError "missing/invalid \"method\" parameter"), st, [], false⟩
  else if !isConnectedClient tr then
    if !cfg.autoConnect then
      ⟨.rejected (.error "Transport not connected"), st, [], false⟩
    else
      match tr.connectOp with
      | some e => ⟨.rejected (.error e), st, [], true⟩
      | none =>
          { makeCall tr st method params rejectOnError completion with
              connectCalled := true }
  else
    makeCall tr st method params rejectOnError completion

/-- The lazy promise returned by `prepare`: per the `lazy-promise`
contract its executor does not run at construction; the handle only
records the arguments the stored executor closes over. -/
structure LazyPromise where
  method : String
  params : JSValue

/-- `prepare(method, params)`: constructs the lazy handle. The executor
is stored, not run, so the engine state is returned unchanged and no
message is sent. -/
def prepare (st : EngineState) (method : String) (params : JSValue) :
    LazyPromise × EngineState × List (List PendingCall) :=
  (⟨method, params⟩, st, [])

/-- First await of a prepared handle (`lazy-promise` runs the stored
executor on the first `then`): validate the method, register the call
with the engine, and — only when batching is disabled — transmit it at
once, a `transport.send` rejection rejecting this handle. Returns the
engine state, the messages sent, and this handle's rejection if any. -/
def forceLazy (cfg : Config) (tr : TransportModel) (st : EngineState)
    (h : LazyPromise) :
    EngineState × List (List PendingCall) × Option JSError :=
  if !nonEmptyString h.method then
    (st, [], some (.typeError "missing/invalid \"method\" parameter"))
  else
    let st1 := engineCall st h.method (paramsOrDefault h.params)
    if !cfg.batchRequests then
      let flushed := engineTransmit st1
      (flushed.1, flushed.2,
        match tr.sendOp with
        | some e => some (.error e)
        | none => none)
    else
      (st1, [], none)

/-- `Promise.all`/`pProps` subscribe to the given handles in order,
which runs each stored executor in order; the aggregate's rejection is
the first handle rejection in that order. -/
def forceAll (cfg : Config) (tr : TransportModel) :
    EngineState → List LazyPromise →
    EngineState × List (List PendingCall) × Option JSError
  | st, [] => (st, [], none)
  | st, h :: hs =>
      let one := forceLazy cfg tr st h
      let rest := forceAll cfg tr one.1 hs
      (rest.1, one.2.1 ++ rest.2.1, one.2.2 <|> rest.2.2)

/-- The pending calls a sequence of forced prepared handles registers
with the engine, in input order, starting at correlation id `n0`: the
`i`-th handle is registered under id `n0 + i` with its own method and
defaulted params. -/
def registeredCalls : Nat → List LazyPromise → List PendingCall
  | _, [] => []
  | n0, h :: hs =>
      ⟨n0, h.method, paramsOrDefault h.params⟩ :: registeredCalls (n0 + 1) hs

/-- An element of the `requests` argument of `batch`: either a
`LazyPromise` produced by `prepare`, or any other value. -/
inductive BatchElem where
  | lp (h : LazyPromise)
  | notLP

/-- `check.instanceStrict(elem, LazyPromise)`. -/
def BatchElem.isLP : BatchElem → Bool
  | .lp _ => true
  | .notLP => false

/-- The underlying handle of a `LazyPromise` element. -/
def BatchElem.toLP : BatchElem → Option LazyPromise
  | .lp h => some h
  | .notLP => none

/-- The `requests` argument of `batch`: a JS array, a plain object, or
a value of any other shape. -/
inductive BatchRequests where
  | arr (elems : List BatchElem)
  | obj (fields : List (String × BatchElem))
  | other

/-- The Responses a batch resolves with: the calls registered during the
flush get the correlation ids `n0, n0+1, …`, and slot `i` of the
aggregate carries `mkResponse` of the engine completion of id `n0+i`. -/
def batchResponses (completion : Nat → JSValue × JSValue) (n0 n : Nat) :
    List JSValue :=
  (List.range n).map
    (fun i => mkResponse (completion (n0 + i)).1 (completion (n0 + i)).2)

/-- The body of `makeCalls` in `batch`: force every handle in order;
when batching is enabled additionally flush all registered requests as
one message (`setImmediate`, hence after all executors ran), a send
rejection during that flush rejecting the whole batch; the first handle
rejection, if any, beats the flush (it settles synchronously). -/
def makeCalls (cfg : Config) (tr : TransportModel) (st : EngineState)
    (hs : List LazyPromise) (resolvedVal : Outcome) : RunResult :=
  let forced := forceAll cfg tr st hs
  if cfg.batchRequests then
    let flushed := engineTransmit forced.1
    let outcome :=
      match forced.2.2 with
      | some e => Outcome.rejected e
      | none =>
          match tr.sendOp with
          | some e =>
              if flushed.2.isEmpty then resolvedVal
              else Outcome.rejected (.error e)
          | none => resolvedVal
    ⟨outcome, flushed.1, forced.2.1 ++ flushed.2, false⟩
  else
    ⟨(match forced.2.2 with
      | some e => Outcome.rejected e
      | none => resolvedVal),
      forced.1, forced.2.1, false⟩

/-- The TypeError rejected for a malformed `requests` argument. -/
def requestsTypeError : JSError :=
  .typeError "missing/invalid \"requests\" parameter"

/-- `batch(requests)`, parametrised by the engine completions:
empty array/object resolve at once to an empty collection of the same
shape; a non-array non-object, or a non-empty collection with a
non-`LazyPromise` element, rejects with the TypeError; otherwise the
connection gate of `call` applies and then `makeCalls` runs, resolving
an array input to an array of Responses in slot order and an object
input to an object over the same keys. -/
def batchRun (cfg : Config) (tr : TransportModel) (st : EngineState)
    (reqs : BatchRequests) (completion : Nat → JSValue × JSValue) : RunResult :=
  match reqs with
  | .arr [] => ⟨.resolved (.arr []), st, [], false⟩
  | .arr (x :: xs) =>
      if (x :: xs).all BatchElem.isLP then
        let hs := (x :: xs).filterMap BatchElem.toLP
        let resolvedVal :=
          Outcome.resolved (.arr (batchResponses completion st.nextId hs.length))
        if !isConnectedClient tr then
          if !cfg.autoConnect then
            ⟨.rejected (.error "Transport not connected"), st, [], false⟩
          else
            match tr.connectOp with
            | some e => ⟨.rejected (.error e), st, [], true⟩
            | none =>
                { makeCalls cfg tr st hs resolvedVal with connectCalled := true }
        else
          makeCalls cfg tr st hs resolvedVal
      else
        ⟨.rejected requestsTypeError, st, [], false⟩
  | .obj [] => ⟨.resolved (.obj []), st, [], false⟩
  | .obj (f :: fs) =>
      if (f :: fs).all (fun kv => kv.2.isLP) then
        let keys := (f :: fs).map Prod.fst
        let hs := (f :: fs).filterMap (fun kv => kv.2.toLP)
        let resolvedVal :=
          Outcome.resolved
            (.obj (keys.zip (batchResponses completion st.nextId hs.length)))
        if !isConnectedClient tr then
          if !cfg.autoConnect then
            ⟨.rejected (.error "Transport not connected"), st, [], false⟩
          else
            match tr.connectOp with
            | some e => ⟨.rejected (.error e), st, [], true⟩
            | none =>
                { makeCalls cfg tr st hs resolvedVal with connectCalled := true }
        else
          makeCalls cfg tr st hs resolvedVal
      else
        ⟨.rejected requestsTypeError, st, [], false⟩
  | .other => ⟨.rejected requestsTypeError, st, [], false⟩

/-- The engine's `exposed` table: notification name → identity of the
registered handler (the client wraps the user handler, so at most one
handler per name). -/
def Exposed : Type := String → Option Nat

/-- `remote.expose(name, wrapper)`: sets `exposed[name]`. -/
def exposeSet (m : Exposed) (name : String) (h : Nat) : Exposed :=
  fun k => if k = name then some h else m k

/-- `delete remote.exposed[name]`. -/
def exposeDelete (m : Exposed) (name : String) : Exposed :=
  fun k => if k = name then none else m k

/-- `notification(name, handler)`: a function handler is exposed
(replacing any prior one); any non-function removes the current
registration when one exists and otherwise changes nothing. -/
def notification (m : Exposed) (name : String) (handler : Option Nat) :
    Exposed :=
  match handler with
  | some h => exposeSet m name h
  | none => if (m name).isSome then exposeDelete m name else m

/-- Inbound dispatch of a notification named `name`: the handler the
engine invokes, `none` when no handler runs. -/
def dispatchNotification (m : Exposed) (name : String) : Option Nat :=
  m name

/-- The per-call timeout handed to the RPC Engine at construction:
`Math.floor(timeout / 1000)` seconds for a configured `timeout` in
milliseconds. -/
def remoteTimeout (timeout : ℚ) : ℤ :=
  ⌊timeout / 1000⌋

theorem truthy_isNull_false {v : JSValue} (h : truthy v = true) :
    isNull v = false := by
  cases v <;> simp_all [truthy, isNull]

theorem responseError_mkResponse (e r : JSValue) :
    responseError (mkResponse e r) = if truthy e then e else .null := by
  simp [responseError, mkResponse, getProp, getField]

theorem responseResult_mkResponse (e r : JSValue) :
    responseResult (mkResponse e r) = if truthy r then r else .null := by
  have h : ("error" = "result") = False := by simp
  simp [responseResult, mkResponse, getProp, getField, h]

theorem isNull_responseError_mkResponse (e r : JSValue) :
    isNull (responseError (mkResponse e r)) = !(truthy e) := by
  rw [responseError_mkResponse]
  by_cases h : truthy e = true
  · simp [h, truthy_isNull_false h]
  · simp at h
    simp [h, isNull]

theorem isNull_responseResult_mkResponse (e r : JSValue) :
    isNull (responseResult (mkResponse e r)) = !(truthy r) := by
  rw [responseResult_mkResponse]
  by_cases h : truthy r = true
  · simp [h, truthy_isNull_false h]
  · simp at h
    simp [h, isNull]

theorem hasField_removeField (fs : List (String × JSValue)) (k : String) :
    hasField (removeField fs k) k = false := by
  induction fs with
  | nil => rfl
  | cons p rest ih =>
      obtain ⟨k', v⟩ := p
      by_cases h : k' = k
      · simpa [removeField, h] using ih
      · simpa [removeField, hasField, h] using ih

theorem getField_removeField_ne (fs : List (String × JSValue)) (k k' : String)
    (h : k' ≠ k) : getField (removeField fs k) k' = getField fs k' := by
  induction fs with
  | nil => rfl
  | cons p rest ih =>
      obtain ⟨k₀, v⟩ := p
      have hkk' : ¬(k = k') := fun hk => h hk.symm
      by_cases h0 : k₀ = k
      · simpa [removeField, getField, h0, hkk'] using ih
      · by_cases h1 : k₀ = k'
        · simp [removeField, getField, h0, h1, h]
        · simpa [removeField, getField, h0, h1] using ih

/-- C1: for every completion value `(err, result)` the RPC Engine passes
to the completion callback, both the `call(…, {rejectOnError:false})`
callback and the `prepare` callback resolve with the Response
`{error: err || null, result: result || null}`; its `error` field is
non-null exactly when `err` is truthy and its `result` field exactly
when `result` is truthy, so exactly one of the two fields is non-null
precisely when exactly one of the completion's two values is truthy —
in particular a success completion with a falsy result (`false`, `0`,
`''`, `null`) leaves both fields null. -/
theorem C1_response_fields (e r : JSValue) :
    callCompletionSettle false e r = .resolved (mkResponse e r) ∧
    prepareCompletionSettle e r = .resolved (mkResponse e r) ∧
    isNull (responseError (mkResponse e r)) = !(truthy e) ∧
    isNull (responseResult (mkResponse e r)) = !(truthy r) ∧
    exactlyOneNonNull (mkResponse e r) = Bool.xor (truthy e) (truthy r) := by
  refine ⟨rfl, rfl, isNull_responseError_mkResponse e r,
    isNull_responseResult_mkResponse e r, ?_⟩
  simp only [exactlyOneNonNull, isNull_responseError_mkResponse,
    isNull_responseResult_mkResponse]
  cases truthy e <;> cases truthy r <;> rfl

/-- C1 counterexample: the engine completing a call successfully with
the falsy result `false` makes the `rejectOnError:false` callback
resolve with `{error: null, result: null}` — both fields null, so the
claimed exactly-one-non-null invariant fails. -/
theorem C1_counterexample :
    ¬(callCompletionSettle false JSValue.null (JSValue.bool false)
        ≠ Outcome.resolved (mkResponse JSValue.null (JSValue.bool false)) ∨
      exactlyOneNonNull (mkResponse JSValue.null (JSValue.bool false)) = true) := by
  simp only [exactlyOneNonNull, responseError, responseResult, mkResponse]
  intro h
  rcases h with h | h
  · exact h rfl
  · simp [truthy, isNull, getProp, getField] at h

/-- C4: when a decoded response object carries both an `error` and a
`result` key, the normalization keeps `error` and discards `result`
only when the stored `error` value is truthy; when it is falsy (for
example `error: null`) the normalization instead discards `error` and
keeps `result`. `onTransportData` applies this cleanup to a truthy
object and to every element of an array before handing the data to the
RPC Engine. -/
theorem C4_cleanResponse (fs : List (String × JSValue)) (xs : List JSValue)
    (he : hasField fs "error" = true) (hr : hasField fs "result" = true) :
    (truthy (getField fs "error") = true →
        cleanResponse (.obj fs) = deleteKey (.obj fs) "result" ∧
        hasOwnProperty (cleanResponse (.obj fs)) "result" = false ∧
        getProp (cleanResponse (.obj fs)) "error" = getField fs "error") ∧
    (truthy (getField fs "error") = false →
        cleanResponse (.obj fs) = deleteKey (.obj fs) "error" ∧
        hasOwnProperty (cleanResponse (.obj fs)) "error" = false ∧
        getProp (cleanResponse (.obj fs)) "result" = getField fs "result") ∧
    normalizeInbound (.arr xs) = .arr (xs.map cleanResponse) ∧
    normalizeInbound (.obj fs) = cleanResponse (.obj fs) := by
  have hguard : (truthy (JSValue.obj fs) && hasOwnProperty (.obj fs) "error"
      && hasOwnProperty (.obj fs) "result") = true := by
    simp [truthy, hasOwnProperty, he, hr]
  refine ⟨?_, ?_, rfl, rfl⟩
  · intro ht
    have hclean : cleanResponse (.obj fs) = deleteKey (.obj fs) "result" := by
      simp [cleanResponse, hguard, getProp, ht]
    refine ⟨hclean, ?_, ?_⟩
    · rw [hclean]
      simpa [deleteKey, hasOwnProperty] using hasField_removeField fs "result"
    · rw [hclean]
      simpa [deleteKey, getProp] using
        getField_removeField_ne fs "result" "error" (by decide)
  · intro ht
    have hclean : cleanResponse (.obj fs) = deleteKey (.obj fs) "error" := by
      simp [cleanResponse, hguard, getProp, ht]
    refine ⟨hclean, ?_, ?_⟩
    · rw [hclean]
      simpa [deleteKey, hasOwnProperty] using hasField_removeField fs "error"
    · rw [hclean]
      simpa [deleteKey, getProp] using
        getField_removeField_ne fs "error" "result" (by decide)

/-- C4 witness: a response `{error: {code:1234}, result: null}` keeps
its truthy error and loses `result`. -/
theorem C4_cleanResponse_witness :
    cleanResponse (.obj [("error", .obj [("code", .num 1234)]), ("result", .null)])
        = deleteKey (.obj [("error", .obj [("code", .num 1234)]), ("result", .null)]) "result" ∧
    hasOwnProperty
        (cleanResponse (.obj [("error", .obj [("code", .num 1234)]), ("result", .null)]))
        "result" = false :=
  let h := (C4_cleanResponse
    [("error", .obj [("code", .num 1234)]), ("result", .null)] [] rfl rfl).1 rfl
  ⟨h.1, h.2.1⟩

/-- C4 counterexample: a response carrying both keys with `error: null`
comes out of the normalization with `error` discarded and `result`
kept, contrary to the claim that `error` wins regardless of its value. -/
theorem C4_counterexample :
    hasOwnProperty
        (cleanResponse (.obj [("error", .null), ("result", .str "ok")]))
        "error" = false ∧
    getProp (cleanResponse (.obj [("error", .null), ("result", .str "ok")]))
        "result" = .str "ok" := by
  constructor <;> rfl

/-- C2: `prepare` only stores the executor: the engine state it leaves
behind is the input state and nothing is transmitted; it is the first
await of the returned lazy handle that registers the call (appending it
to the engine's pending set under the fresh correlation id) and that
transmits a message exactly when the session was constructed with
`batchRequests = false`. -/
theorem C2_prepare_registration (cfg : Config) (tr : TransportModel)
    (st : EngineState) (method : String) (params : JSValue)
    (hm : nonEmptyString method = true) :
    (prepare st method params).2.1 = st ∧
    (prepare st method params).2.2 = [] ∧
    (forceLazy cfg tr st ⟨method, params⟩).1.pending
      = st.pending ++ [⟨st.nextId, method, paramsOrDefault params⟩] ∧
    ((forceLazy cfg tr st ⟨method, params⟩).2.1 ≠ [] ↔
        cfg.batchRequests = false) := by
  refine ⟨rfl, rfl, ?_, ?_⟩
  · unfold forceLazy
    cases hb : cfg.batchRequests
    · have hout : (st.outbox
            ++ [(⟨st.nextId, method, paramsOrDefault params⟩ : PendingCall)]).isEmpty
          = false := by
        cases st.outbox <;> rfl
      simp [hm, hb, engineTransmit, engineCall, hout]
    · simp [hm, hb, engineCall]
  · unfold forceLazy
    cases hb : cfg.batchRequests
    · have hout : (st.outbox
            ++ [(⟨st.nextId, method, paramsOrDefault params⟩ : PendingCall)]).isEmpty
          = false := by
        cases st.outbox <;> rfl
      simp [hm, hb, engineTransmit, engineCall, hout]
    · simp [hm, hb]

/-- C2 witness: prepare and first await of `prepare('m', null)` on a
fresh non-batching session. -/
theorem C2_prepare_registration_witness :
    (prepare ⟨0, [], []⟩ "m" .null).2.1 = (⟨0, [], []⟩ : EngineState) ∧
    (prepare ⟨0, [], []⟩ "m" .null).2.2 = [] ∧
    (forceLazy ⟨true, false⟩ ⟨false, false, none, none, none⟩ ⟨0, [], []⟩
        ⟨"m", .null⟩).1.pending
      = ([] : List PendingCall) ++ [⟨0, "m", paramsOrDefault .null⟩] ∧
    ((forceLazy ⟨true, false⟩ ⟨false, false, none, none, none⟩ ⟨0, [], []⟩
        ⟨"m", .null⟩).2.1 ≠ [] ↔ (⟨true, false⟩ : Config).batchRequests = false) :=
  C2_prepare_registration ⟨true, false⟩ ⟨false, false, none, none, none⟩
    ⟨0, [], []⟩ "m" .null rfl

/-- C2 counterexample: on a fresh session, `prepare('m', [])` — a valid
non-empty method — leaves the engine with no pending call (no
correlation id, no timer) and transmits nothing, so neither
registration nor transmission happens at `prepare` time. -/
theorem C2_counterexample :
    ¬((prepare ⟨0, [], []⟩ "m" (.arr [])).2.1.pending ≠ [] ∨
      (prepare ⟨0, [], []⟩ "m" (.arr [])).2.2 ≠ []) := by
  simp [prepare]

/-- C3: with `rejectOnError:false`, on a connected session, every
protocol-level engine completion (server result, RPC error or the
timeout sentinel) resolves the call's promise with the Response built
from it — it never rejects — while a `transport.send` rejection rejects
the promise with that transport error and is never folded into a
Response. -/
theorem C3_call_settlement (cfg : Config) (tr : TransportModel)
    (st : EngineState) (method : String) (params : JSValue)
    (completion : JSValue × JSValue)
    (hm : nonEmptyString method = true)
    (hc : isConnectedClient tr = true) :
    (tr.sendOp = none →
        (callRun cfg tr st method params false completion).outcome
          = .resolved (mkResponse completion.1 completion.2)) ∧
    (∀ e, tr.sendOp = some e →
        (callRun cfg tr st method params false completion).outcome
          = .rejected (.error e)) := by
  constructor
  · intro hs
    simp [callRun, hm, hc, makeCall, hs, callCompletionSettle]
  · intro e hs
    simp [callRun, hm, hc, makeCall, hs]

/-- C3 witness: a connected connectionless transport, an RPC-error
completion resolving to a Response, and a failing send rejecting. -/
theorem C3_call_settlement_witness :
    (callRun ⟨true, true⟩ ⟨false, false, none, none, none⟩ ⟨0, [], []⟩
        "m" .null false (.obj [("code", .num 1234)], .null)).outcome
      = .resolved (mkResponse (.obj [("code", .num 1234)]) .null) ∧
    (callRun ⟨true, true⟩ ⟨false, false, none, none, some "boom"⟩ ⟨0, [], []⟩
        "m" .null false (.null, .str "ok")).outcome
      = .rejected (.error "boom") :=
  ⟨(C3_call_settlement (⟨true, true⟩ : Config)
      (⟨false, false, none, none, none⟩ : TransportModel)
      (⟨0, [], []⟩ : EngineState)
      "m" .null (.obj [("code", .num 1234)], .null) rfl rfl).1 rfl,
   (C3_call_settlement (⟨true, true⟩ : Config)
      (⟨false, false, none, none, some "boom"⟩ : TransportModel)
      (⟨0, [], []⟩ : EngineState) "m" .null (.null, .str "ok") rfl rfl).2
      "boom" rfl⟩

theorem forceLazy_err_none (cfg : Config) (tr : TransportModel)
    (st : EngineState) (h : LazyPromise)
    (hm : nonEmptyString h.method = true)
    (hok : cfg.batchRequests = true ∨ tr.sendOp = none) :
    (forceLazy cfg tr st h).2.2 = none := by
  unfold forceLazy
  rcases hok with hb | hs
  · simp [hm, hb]
  · cases hb : cfg.batchRequests <;> simp [hm, hb, hs]

theorem forceAll_err_none (cfg : Config) (tr : TransportModel)
    (hs : List LazyPromise)
    (hm : ∀ h ∈ hs, nonEmptyString h.method = true)
    (hok : cfg.batchRequests = true ∨ tr.sendOp = none) :
    ∀ st, (forceAll cfg tr st hs).2.2 = none := by
  induction hs with
  | nil => intro st; rfl
  | cons h rest ih =>
      intro st
      have h1 := forceLazy_err_none cfg tr st h (hm h (by simp)) hok
      have h2 := ih (fun x hx => hm x (by simp [hx])) (forceLazy cfg tr st h).1
      simp [forceAll, h1, h2]

theorem makeCalls_outcome_ok (cfg : Config) (tr : TransportModel)
    (st : EngineState) (hs : List LazyPromise) (resolvedVal : Outcome)
    (herr : (forceAll cfg tr st hs).2.2 = none) (hsend : tr.sendOp = none) :
    (makeCalls cfg tr st hs resolvedVal).outcome = resolvedVal := by
  unfold makeCalls
  cases hb : cfg.batchRequests <;> simp [hb, herr, hsend]

theorem length_batchResponses (completion : Nat → JSValue × JSValue)
    (n0 n : Nat) : (batchResponses completion n0 n).length = n := by
  simp [batchResponses]

theorem filterMap_toLP_map_lp (hs : List LazyPromise) :
    (hs.map BatchElem.lp).filterMap BatchElem.toLP = hs := by
  induction hs with
  | nil => rfl
  | cons h rest ih => simp [BatchElem.toLP, ih]

theorem all_isLP_map_lp (hs : List LazyPromise) :
    (hs.map BatchElem.lp).all BatchElem.isLP = true := by
  simp [List.all_eq_true, BatchElem.isLP]

theorem all_isLP_map_kv (l : List (String × LazyPromise)) :
    (l.map (fun kv => (kv.1, BatchElem.lp kv.2))).all (fun kv => kv.2.isLP)
      = true := by
  induction l with
  | nil => rfl
  | cons a rest ih => simpa [BatchElem.isLP] using ih

theorem filterMap_toLP_map_kv (l : List (String × LazyPromise)) :
    (l.map (fun kv => (kv.1, BatchElem.lp kv.2))).filterMap (fun kv => kv.2.toLP)
      = l.map Prod.snd := by
  induction l with
  | nil => rfl
  | cons a rest ih => simpa [List.filterMap_cons, BatchElem.toLP] using ih

theorem engineTransmit_pending (st : EngineState) :
    (engineTransmit st).1.pending = st.pending := by
  unfold engineTransmit
  split <;> rfl

theorem engineTransmit_nextId (st : EngineState) :
    (engineTransmit st).1.nextId = st.nextId := by
  unfold engineTransmit
  split <;> rfl

theorem forceLazy_engine (cfg : Config) (tr : TransportModel)
    (st : EngineState) (h : LazyPromise)
    (hm : nonEmptyString h.method = true) :
    (forceLazy cfg tr st h).1.pending
        = st.pending ++ [⟨st.nextId, h.method, paramsOrDefault h.params⟩] ∧
    (forceLazy cfg tr st h).1.nextId = st.nextId + 1 := by
  unfold forceLazy
  cases hb : cfg.batchRequests <;>
    simp [hm, hb, engineCall, engineTransmit_pending, engineTransmit_nextId]

theorem forceAll_engine (cfg : Config) (tr : TransportModel)
    (hs : List LazyPromise)
    (hm : ∀ h ∈ hs, nonEmptyString h.method = true) :
    ∀ st, (forceAll cfg tr st hs).1.pending
        = st.pending ++ registeredCalls st.nextId hs ∧
      (forceAll cfg tr st hs).1.nextId = st.nextId + hs.length := by
  induction hs with
  | nil => intro st; simp [forceAll, registeredCalls]
  | cons h rest ih =>
      intro st
      have h1 := forceLazy_engine cfg tr st h (hm h (by simp))
      have h2 := ih (fun y hy => hm y (by simp [hy])) (forceLazy cfg tr st h).1
      constructor
      · simp only [forceAll]
        rw [h2.1, h1.1, h1.2]
        simp [registeredCalls]
      · simp only [forceAll]
        rw [h2.2, h1.2]
        simp [List.length_cons]
        omega

theorem forceLazy_outbox_batch (cfg : Config) (tr : TransportModel)
    (st : EngineState) (h : LazyPromise) (hb : cfg.batchRequests = true)
    (hm : nonEmptyString h.method = true) :
    (forceLazy cfg tr st h).1.outbox
      = st.outbox ++ [⟨st.nextId, h.method, paramsOrDefault h.params⟩] := by
  unfold forceLazy
  simp [hm, hb, engineCall]

theorem forceAll_outbox_batch (cfg : Config) (tr : TransportModel)
    (hs : List LazyPromise) (hb : cfg.batchRequests = true)
    (hm : ∀ h ∈ hs, nonEmptyString h.method = true) :
    ∀ st, (forceAll cfg tr st hs).1.outbox
        = st.outbox ++ registeredCalls st.nextId hs := by
  induction hs with
  | nil => intro st; simp [forceAll, registeredCalls]
  | cons h rest ih =>
      intro st
      have h1 := forceLazy_outbox_batch cfg tr st h hb (hm h (by simp))
      have hnext := (forceLazy_engine cfg tr st h (hm h (by simp))).2
      have h2 := ih (fun y hy => hm y (by simp [hy])) (forceLazy cfg tr st h).1
      simp only [forceAll]
      rw [h2, h1, hnext]
      simp [registeredCalls]

theorem forceLazy_tx_nobatch (cfg : Config) (tr : TransportModel)
    (st : EngineState) (h : LazyPromise) (hb : cfg.batchRequests = false)
    (hm : nonEmptyString h.method = true) :
    (forceLazy cfg tr st h).2.1
      = [st.outbox ++ [⟨st.nextId, h.method, paramsOrDefault h.params⟩]] := by
  have hout : (st.outbox
        ++ [(⟨st.nextId, h.method, paramsOrDefault h.params⟩ : PendingCall)]).isEmpty
      = false := by
    cases st.outbox <;> rfl
  unfold forceLazy
  simp [hm, hb, engineCall, engineTransmit, hout]

theorem makeCalls_engine_pending (cfg : Config) (tr : TransportModel)
    (st : EngineState) (hs : List LazyPromise) (resolvedVal : Outcome) :
    (makeCalls cfg tr st hs resolvedVal).engine.pending
      = (forceAll cfg tr st hs).1.pending := by
  unfold makeCalls
  cases hb : cfg.batchRequests <;> simp [hb, engineTransmit_pending]

theorem makeCalls_transmissions_ne (cfg : Config) (tr : TransportModel)
    (st : EngineState) (x : LazyPromise) (xs : List LazyPromise)
    (resolvedVal : Outcome)
    (hm : ∀ h ∈ (x :: xs : List LazyPromise), nonEmptyString h.method = true) :
    (makeCalls cfg tr st (x :: xs) resolvedVal).transmissions ≠ [] := by
  unfold makeCalls
  cases hb : cfg.batchRequests
  · have h1 := forceLazy_tx_nobatch cfg tr st x hb (hm x (by simp))
    simp only [hb, Bool.false_eq_true, if_false]
    simp only [forceAll]
    rw [h1]
    simp
  · have hout := forceAll_outbox_batch cfg tr (x :: xs) hb hm st
    have hne : ((forceAll cfg tr st (x :: xs)).1.outbox).isEmpty = false := by
      rw [hout]
      cases st.outbox <;> simp [registeredCalls]
    simp only [hb, if_true]
    simp [engineTransmit, hne, List.append_eq_nil]

theorem batchResponses_getD (completion : Nat → JSValue × JSValue)
    (n0 n i : Nat) (h : i < n) :
    (batchResponses completion n0 n).getD i .null
      = mkResponse (completion (n0 + i)).1 (completion (n0 + i)).2 := by
  simp [batchResponses, List.getElem?_range h]

theorem batchRun_arr_eq (cfg : Config) (tr : TransportModel)
    (st : EngineState) (x : LazyPromise) (xs : List LazyPromise)
    (completion : Nat → JSValue × JSValue)
    (hc : isConnectedClient tr = true) :
    batchRun cfg tr st (.arr ((x :: xs).map .lp)) completion
      = makeCalls cfg tr st (x :: xs)
          (.resolved (.arr (batchResponses completion st.nextId (x :: xs).length))) := by
  have hall : (BatchElem.lp x :: xs.map BatchElem.lp).all BatchElem.isLP
      = true := all_isLP_map_lp (x :: xs)
  have hfm : (BatchElem.lp x :: xs.map BatchElem.lp).filterMap BatchElem.toLP
      = x :: xs := filterMap_toLP_map_lp (x :: xs)
  show batchRun cfg tr st (.arr (BatchElem.lp x :: xs.map BatchElem.lp))
      completion = _
  simp only [batchRun]
  simp [hall, hfm, hc]

theorem batchRun_arr_eq_auto (cfg : Config) (tr : TransportModel)
    (st : EngineState) (x : LazyPromise) (xs : List LazyPromise)
    (completion : Nat → JSValue × JSValue)
    (hconn : isConnectedClient tr = false) (hac : cfg.autoConnect = true)
    (hco : tr.connectOp = none) :
    batchRun cfg tr st (.arr ((x :: xs).map .lp)) completion
      = { makeCalls cfg tr st (x :: xs)
            (.resolved (.arr (batchResponses completion st.nextId (x :: xs).length)))
          with connectCalled := true } := by
  have hall : (BatchElem.lp x :: xs.map BatchElem.lp).all BatchElem.isLP
      = true := all_isLP_map_lp (x :: xs)
  have hfm : (BatchElem.lp x :: xs.map BatchElem.lp).filterMap BatchElem.toLP
      = x :: xs := filterMap_toLP_map_lp (x :: xs)
  show batchRun cfg tr st (.arr (BatchElem.lp x :: xs.map BatchElem.lp))
      completion = _
  simp only [batchRun]
  simp [hall, hfm, hconn, hac, hco]

/-- C5: `batch` preserves the shape of its input. An empty array and an
empty object resolve at once to an empty collection of the same shape
with the engine untouched, no message sent and no connect performed —
for every transport, connected or not. A non-empty array of `n`
prepared calls (on a connected transport with a succeeding send)
resolves to an array of exactly `n` Responses in the input's order:
the `i`-th input handle is registered under correlation id
`st.nextId + i` (in input order, per `registeredCalls`) and slot `i` of
the resolved array is exactly the Response built from the engine
completion of that id. A non-empty object resolves to an object whose
keys are exactly the input's keys in order. -/
theorem C5_batch_shape (cfg : Config) (tr : TransportModel) (st : EngineState)
    (completion : Nat → JSValue × JSValue) :
    (batchRun cfg tr st (.arr []) completion
      = ⟨.resolved (.arr []), st, [], false⟩) ∧
    (batchRun cfg tr st (.obj []) completion
      = ⟨.resolved (.obj []), st, [], false⟩) ∧
    (∀ x xs, (∀ h ∈ (x :: xs : List LazyPromise), nonEmptyString h.method = true) →
        isConnectedClient tr = true → tr.sendOp = none →
        ∃ rs : List JSValue,
          (batchRun cfg tr st (.arr ((x :: xs).map .lp)) completion).outcome
            = .resolved (.arr rs) ∧
          rs.length = (x :: xs).length ∧
          (∀ i, i < (x :: xs).length →
              rs.getD i .null
                = mkResponse (completion (st.nextId + i)).1
                    (completion (st.nextId + i)).2) ∧
          (batchRun cfg tr st (.arr ((x :: xs).map .lp)) completion).engine.pending
            = st.pending ++ registeredCalls st.nextId (x :: xs)) ∧
    (∀ f fs,
        (∀ kv ∈ (f :: fs : List (String × LazyPromise)),
            nonEmptyString kv.2.method = true) →
        isConnectedClient tr = true → tr.sendOp = none →
        ∃ rs : List (String × JSValue),
          (batchRun cfg tr st
              (.obj ((f :: fs).map (fun kv => (kv.1, .lp kv.2)))) completion).outcome
            = .resolved (.obj rs) ∧
          rs.map Prod.fst = (f :: fs).map Prod.fst) := by
  refine ⟨rfl, rfl, ?_, ?_⟩
  · intro x xs hm hc hsend
    have heq := batchRun_arr_eq cfg tr st x xs completion hc
    have herr := forceAll_err_none cfg tr (x :: xs) hm (Or.inr hsend) st
    refine ⟨batchResponses completion st.nextId (x :: xs).length, ?_,
      length_batchResponses completion st.nextId (x :: xs).length, ?_, ?_⟩
    · rw [heq]
      exact makeCalls_outcome_ok cfg tr st (x :: xs) _ herr hsend
    · intro i hi
      exact batchResponses_getD completion st.nextId (x :: xs).length i hi
    · rw [heq, makeCalls_engine_pending]
      exact (forceAll_engine cfg tr (x :: xs) hm st).1
  · intro f fs hm hc hsend
    have hall : ((f.1, BatchElem.lp f.2)
        :: fs.map (fun kv => (kv.1, BatchElem.lp kv.2))).all
          (fun kv => kv.2.isLP) = true := all_isLP_map_kv (f :: fs)
    have hfm : (((f.1, BatchElem.lp f.2)
        :: fs.map (fun kv => (kv.1, BatchElem.lp kv.2))).filterMap
          (fun kv => kv.2.toLP)) = (f :: fs).map Prod.snd :=
      filterMap_toLP_map_kv (f :: fs)
    have hkeys : (((f.1, BatchElem.lp f.2)
        :: fs.map (fun kv => (kv.1, BatchElem.lp kv.2))).map Prod.fst)
          = (f :: fs).map Prod.fst := by
      simp
    have herr := forceAll_err_none cfg tr ((f :: fs).map Prod.snd)
      (by
        intro h hh
        simp only [List.mem_map] at hh
        obtain ⟨kv, hkv, hkveq⟩ := hh
        rw [← hkveq]
        exact hm kv hkv)
      (Or.inr hsend) st
    refine ⟨((f :: fs).map Prod.fst).zip
        (batchResponses completion st.nextId ((f :: fs).map Prod.snd).length),
      ?_, ?_⟩
    · show (batchRun cfg tr st
          (.obj ((f.1, BatchElem.lp f.2)
            :: fs.map (fun kv => (kv.1, BatchElem.lp kv.2)))) completion).outcome = _
      simp only [batchRun]
      simp only [hall, hfm, hkeys, hc, Bool.not_true, if_true, if_false,
        Bool.false_eq_true, ite_false, ite_true]
      exact makeCalls_outcome_ok cfg tr st ((f :: fs).map Prod.snd) _ herr hsend
    · refine List.map_fst_zip _ _ ?_
      rw [length_batchResponses]
      simp

/-- C5 witness: the empty-array batch and a one-element array batch on
a connected session, the single slot carrying the Response of the
single registered call's completion. -/
theorem C5_batch_shape_witness :
    (batchRun (⟨true, true⟩ : Config)
        (⟨false, false, none, none, none⟩ : TransportModel)
        (⟨0, [], []⟩ : EngineState) (.arr []) (fun _ => (.null, .null))
      = ⟨.resolved (.arr []), ⟨0, [], []⟩, [], false⟩) ∧
    (∃ rs : List JSValue,
        (batchRun (⟨true, true⟩ : Config)
            (⟨false, false, none, none, none⟩ : TransportModel)
            (⟨0, [], []⟩ : EngineState)
            (.arr (((⟨"m", .null⟩ : LazyPromise) :: ([] : List LazyPromise)).map .lp))
            (fun _ => (.null, .null))).outcome
          = .resolved (.arr rs) ∧
        rs.length = ((⟨"m", .null⟩ : LazyPromise) :: ([] : List LazyPromise)).length ∧
        (∀ i, i < ((⟨"m", .null⟩ : LazyPromise) :: ([] : List LazyPromise)).length →
            rs.getD i .null = mkResponse .null .null) ∧
        (batchRun (⟨true, true⟩ : Config)
            (⟨false, false, none, none, none⟩ : TransportModel)
            (⟨0, [], []⟩ : EngineState)
            (.arr (((⟨"m", .null⟩ : LazyPromise) :: ([] : List LazyPromise)).map .lp))
            (fun _ => (.null, .null))).engine.pending
          = ([] : List PendingCall)
              ++ registeredCalls 0 ((⟨"m", .null⟩ : LazyPromise) :: [])) :=
  ⟨(C5_batch_shape (⟨true, true⟩ : Config)
      (⟨false, false, none, none, none⟩ : TransportModel)
      (⟨0, [], []⟩ : EngineState) (fun _ => (.null, .null))).1,
   (C5_batch_shape (⟨true, true⟩ : Config)
      (⟨false, false, none, none, none⟩ : TransportModel)
      (⟨0, [], []⟩ : EngineState) (fun _ => (.null, .null))).2.2.1
      ⟨"m", .null⟩ []
      (by intro h hh; simp at hh; subst hh; decide) rfl rfl⟩
/-- C6: `batch` rejects with the `TypeError` when its argument is
neither an array nor a plain object, and when any element of a
non-empty array or any value of a non-empty object is not a
`LazyPromise`; in every such case the engine is untouched, nothing is
sent and no connect is performed. -/
theorem C6_batch_validation (cfg : Config) (tr : TransportModel)
    (st : EngineState) (completion : Nat → JSValue × JSValue) :
    (batchRun cfg tr st .other completion
      = ⟨.rejected requestsTypeError, st, [], false⟩) ∧
    (∀ x xs, (∃ y ∈ (x :: xs : List BatchElem), y.isLP = false) →
        batchRun cfg tr st (.arr (x :: xs)) completion
          = ⟨.rejected requestsTypeError, st, [], false⟩) ∧
    (∀ f fs, (∃ kv ∈ (f :: fs : List (String × BatchElem)), kv.2.isLP = false) →
        batchRun cfg tr st (.obj (f :: fs)) completion
          = ⟨.rejected requestsTypeError, st, [], false⟩) := by
  refine ⟨rfl, ?_, ?_⟩
  · intro x xs hex
    have hall : ((x :: xs).all BatchElem.isLP) = false := by
      obtain ⟨y, hy, hny⟩ := hex
      rcases hb : (x :: xs).all BatchElem.isLP with _ | _
      · rfl
      · exact absurd (List.all_eq_true.mp hb y hy) (by simp [hny])
    simp only [batchRun]
    simp [hall]
  · intro f fs hex
    have hall : ((f :: fs).all (fun kv => kv.2.isLP)) = false := by
      obtain ⟨kv, hkv, hny⟩ := hex
      rcases hb : (f :: fs).all (fun kv => kv.2.isLP) with _ | _
      · rfl
      · exact absurd (List.all_eq_true.mp hb kv hkv) (by simp [hny])
    simp only [batchRun]
    simp [hall]

/-- C6 witness: a singleton array holding a non-`LazyPromise` element
rejects with the TypeError and touches nothing. -/
theorem C6_batch_validation_witness :
    batchRun (⟨true, true⟩ : Config)
        (⟨false, false, none, none, none⟩ : TransportModel)
        (⟨0, [], []⟩ : EngineState) (.arr [.notLP]) (fun _ => (.null, .null))
      = ⟨.rejected requestsTypeError, ⟨0, [], []⟩, [], false⟩ :=
  (C6_batch_validation (⟨true, true⟩ : Config)
      (⟨false, false, none, none, none⟩ : TransportModel)
      (⟨0, [], []⟩ : EngineState) (fun _ => (.null, .null))).2.1
    .notLP [] ⟨.notLP, by simp, rfl⟩

/-- C7: for a `call` and for a non-empty `batch` issued while the
session is not connected: with `autoConnect` off the promise rejects
with the `ConnectionError` (`Error('Transport not connected')`) and the
engine is untouched with nothing sent and no connect attempted; with
`autoConnect` on the transport is connected first — a connect failure
rejects the promise with that failure and nothing is registered or
sent — and on a successful connect the dispatch proceeds: the call
(and, for a batch of prepared calls with valid methods, every batched
call) is registered (appended to the engine's pending set, in order)
and transmitted only after the connect. -/
theorem C7_connect_gate (cfg : Config) (tr : TransportModel)
    (st : EngineState) (method : String) (params : JSValue) (roe : Bool)
    (completion : JSValue × JSValue) (bcompletion : Nat → JSValue × JSValue)
    (x : LazyPromise) (xs : List LazyPromise)
    (hm : nonEmptyString method = true)
    (hconn : isConnectedClient tr = false) :
    (cfg.autoConnect = false →
        callRun cfg tr st method params roe completion
          = ⟨.rejected (.error "Transport not connected"), st, [], false⟩ ∧
        batchRun cfg tr st (.arr ((x :: xs).map .lp)) bcompletion
          = ⟨.rejected (.error "Transport not connected"), st, [], false⟩) ∧
    (∀ e, cfg.autoConnect = true → tr.connectOp = some e →
        callRun cfg tr st method params roe completion
          = ⟨.rejected (.error e), st, [], true⟩ ∧
        batchRun cfg tr st (.arr ((x :: xs).map .lp)) bcompletion
          = ⟨.rejected (.error e), st, [], true⟩) ∧
    (cfg.autoConnect = true → tr.connectOp = none →
        (callRun cfg tr st method params roe completion).connectCalled = true ∧
        (callRun cfg tr st method params roe completion).engine.pending
          = st.pending ++ [⟨st.nextId, method, paramsOrDefault params⟩] ∧
        (callRun cfg tr st method params roe completion).transmissions ≠ [] ∧
        (batchRun cfg tr st (.arr ((x :: xs).map .lp)) bcompletion).connectCalled
          = true ∧
        ((∀ h ∈ (x :: xs : List LazyPromise), nonEmptyString h.method = true) →
            (batchRun cfg tr st (.arr ((x :: xs).map .lp)) bcompletion).engine.pending
              = st.pending ++ registeredCalls st.nextId (x :: xs) ∧
            (batchRun cfg tr st (.arr ((x :: xs).map .lp)) bcompletion).transmissions
              ≠ [])) := by
  have hall : (BatchElem.lp x :: xs.map BatchElem.lp).all BatchElem.isLP
      = true := all_isLP_map_lp (x :: xs)
  refine ⟨?_, ?_, ?_⟩
  · intro hac
    constructor
    · simp [callRun, hm, hconn, hac]
    · show batchRun cfg tr st (.arr (BatchElem.lp x :: xs.map BatchElem.lp))
          bcompletion = _
      simp only [batchRun]
      simp [hall, hconn, hac]
  · intro e hac hco
    constructor
    · simp [callRun, hm, hconn, hac, hco]
    · show batchRun cfg tr st (.arr (BatchElem.lp x :: xs.map BatchElem.lp))
          bcompletion = _
      simp only [batchRun]
      simp [hall, hconn, hac, hco]
  · intro hac hco
    have hout : (st.outbox
          ++ [(⟨st.nextId, method, paramsOrDefault params⟩ : PendingCall)]).isEmpty
        = false := by
      cases st.outbox <;> rfl
    have hbeq := batchRun_arr_eq_auto cfg tr st x xs bcompletion hconn hac hco
    refine ⟨?_, ?_, ?_, ?_, ?_⟩
    · simp [callRun, hm, hconn, hac, hco, makeCall]
    · simp [callRun, hm, hconn, hac, hco, makeCall, engineCall,
        engineTransmit, hout]
    · simp [callRun, hm, hconn, hac, hco, makeCall, engineCall,
        engineTransmit, hout]
    · rw [hbeq]
    · intro hbm
      constructor
      · rw [hbeq]
        show (makeCalls cfg tr st (x :: xs)
            (.resolved (.arr (batchResponses bcompletion st.nextId
              (x :: xs).length)))).engine.pending
          = st.pending ++ registeredCalls st.nextId (x :: xs)
        rw [makeCalls_engine_pending]
        exact (forceAll_engine cfg tr (x :: xs) hbm st).1
      · rw [hbeq]
        show (makeCalls cfg tr st (x :: xs)
            (.resolved (.arr (batchResponses bcompletion st.nextId
              (x :: xs).length)))).transmissions ≠ []
        exact makeCalls_transmissions_ne cfg tr st x xs _ hbm

/-- C7 witness: a disconnected connection-oriented transport; without
`autoConnect` both a call and a one-element batch reject with the
connection error; with `autoConnect` and a failing connect both reject
with that failure. -/
theorem C7_connect_gate_witness :
    (callRun (⟨false, true⟩ : Config)
        (⟨true, false, none, none, none⟩ : TransportModel)
        (⟨0, [], []⟩ : EngineState) "m" .null true (.null, .null)
      = ⟨.rejected (.error "Transport not connected"), ⟨0, [], []⟩, [], false⟩) ∧
    (callRun (⟨true, true⟩ : Config)
        (⟨true, false, some "dial failed", none, none⟩ : TransportModel)
        (⟨0, [], []⟩ : EngineState) "m" .null true (.null, .null)
      = ⟨.rejected (.error "dial failed"), ⟨0, [], []⟩, [], true⟩) :=
  ⟨((C7_connect_gate (⟨false, true⟩ : Config)
      (⟨true, false, none, none, none⟩ : TransportModel)
      (⟨0, [], []⟩ : EngineState) "m" .null true (.null, .null)
      (fun _ => (.null, .null)) ⟨"n", .null⟩ [] rfl rfl).1 rfl).1,
   ((C7_connect_gate (⟨true, true⟩ : Config)
      (⟨true, false, some "dial failed", none, none⟩ : TransportModel)
      (⟨0, [], []⟩ : EngineState) "m" .null true (.null, .null)
      (fun _ => (.null, .null)) ⟨"n", .null⟩ [] rfl rfl).2.1
      "dial failed" rfl rfl).1⟩

/-- C8: `connect()` resolves immediately without any transport
operation when the transport is connectionless or already connected,
and `disconnect()` does so when connectionless or already disconnected;
in the remaining state each delegates to the corresponding transport
method and returns that method's settlement unchanged. -/
theorem C8_connect_disconnect (t : TransportModel) :
    ((t.needsConnection = false ∨ t.isConnected = true) →
        clientConnect t = (none, false)) ∧
    (t.needsConnection = true → t.isConnected = false →
        clientConnect t = (t.connectOp, true)) ∧
    ((t.needsConnection = false ∨ t.isConnected = false) →
        clientDisconnect t = (none, false)) ∧
    (t.needsConnection = true → t.isConnected = true →
        clientDisconnect t = (t.disconnectOp, true)) := by
  refine ⟨?_, ?_, ?_, ?_⟩
  · intro h
    rcases h with h | h <;> simp [clientConnect, h]
  · intro h1 h2
    simp [clientConnect, h1, h2]
  · intro h
    rcases h with h | h <;> simp [clientDisconnect, h]
  · intro h1 h2
    simp [clientDisconnect, h1, h2]

/-- C8 witness: an already-connected transport makes `connect()` a
no-op; a disconnected one delegates and surfaces the connect failure. -/
theorem C8_connect_disconnect_witness :
    clientConnect (⟨true, true, some "unused", none, none⟩ : TransportModel)
      = (none, false) ∧
    clientConnect (⟨true, false, some "dial failed", none, none⟩ : TransportModel)
      = (some "dial failed", true) :=
  ⟨(C8_connect_disconnect
      (⟨true, true, some "unused", none, none⟩ : TransportModel)).1 (Or.inr rfl),
   (C8_connect_disconnect
      (⟨true, false, some "dial failed", none, none⟩ : TransportModel)).2.1
      rfl rfl⟩

/-- C9: registering a second handler for a notification name replaces
the first, so only the second is dispatched afterwards; passing a
non-function removes the current registration, so a previously
registered handler is dispatched no further time; and passing a
non-function when nothing is registered for the name leaves the
registry unchanged. -/
theorem C9_notification_registry (m : Exposed) (n : String) (h1 h2 h3 : Nat) :
    dispatchNotification (notification (notification m n (some h1)) n (some h2)) n
      = some h2 ∧
    dispatchNotification (notification (notification m n (some h3)) n none) n
      = none ∧
    (m n = none → notification m n none = m) := by
  refine ⟨?_, ?_, ?_⟩
  · simp [dispatchNotification, notification, exposeSet]
  · simp [dispatchNotification, notification, exposeSet, exposeDelete]
  · intro h
    simp [notification, h]

/-- C9 witness: on the empty registry, register-then-remove dispatches
nothing afterwards, and removing from the empty registry is a no-op. -/
theorem C9_notification_registry_witness :
    dispatchNotification
        (notification (notification (fun _ => none) "evt" (some 7)) "evt" none)
        "evt" = none ∧
    notification (fun _ => none) "evt" none = (fun _ => none) :=
  ⟨(C9_notification_registry (fun _ => none) "evt" 7 7 7).2.1,
   (C9_notification_registry (fun _ => none) "evt" 7 7 7).2.2 rfl⟩

/-- C10: the engine is constructed with
`remoteTimeout = Math.floor(timeout / 1000)` whole seconds, so for
every accepted timeout `t ≥ 1000` ms the effective timeout is the
floor of `t / 1000`: it covers `t` up to less than one extra second and
the fractional-second part of `t` is discarded — `t = 1999` yields the
same 1-second effective timeout as `t = 1000`. -/
theorem C10_timeout_floor (t : ℚ) (h : 1000 ≤ t) :
    ((remoteTimeout t : ℚ) * 1000 ≤ t ∧
      t < ((remoteTimeout t : ℚ) + 1) * 1000 ∧
      1 ≤ remoteTimeout t) ∧
    remoteTimeout 1999 = 1 ∧ remoteTimeout 1000 = 1 := by
  have h1000 : (0 : ℚ) < 1000 := by norm_num
  refine ⟨⟨?_, ?_, ?_⟩, ?_, ?_⟩
  · have := Int.floor_le (t / 1000)
    rw [le_div_iff₀ h1000] at this
    exact this
  · rw [remoteTimeout]
    have := Int.lt_floor_add_one (t / 1000)
    rw [div_lt_iff₀ h1000] at this
    exact_mod_cast this
  · rw [remoteTimeout, Int.le_floor]
    rw [le_div_iff₀ h1000]
    push_cast
    linarith
  · rw [remoteTimeout, Int.floor_eq_iff] ; norm_num
  · rw [remoteTimeout, Int.floor_eq_iff] ; norm_num

/-- C10 witness: at `t = 1999` ms the effective timeout is 1 second,
the same as at `t = 1000` ms. -/
theorem C10_timeout_floor_witness :
    ((remoteTimeout 1999 : ℚ) * 1000 ≤ 1999 ∧
      (1999 : ℚ) < ((remoteTimeout 1999 : ℚ) + 1) * 1000 ∧
      1 ≤ remoteTimeout 1999) ∧
    remoteTimeout 1999 = 1 ∧ remoteTimeout 1000 = 1 :=
  C10_timeout_floor 1999 (by norm_num)

end JRPCClient
